import Mathlib

/-!
Verification of the declarative component configuration and instantiation
framework (registry + schema-validated round-trip dispatch).

The repository ships the framework's documentation; the framework itself
(schema descriptor, registry, dumper, loader) is modelled here from the
design document, and the example component `MyComponent` with its
`_to_config` / `_from_config` pair is translated directly from the
documentation notebook.
-/

set_option autoImplicit false

namespace ComponentConfig

/-- Modelled from the spec: JSON-like structured values carried in a
config payload (the source framework code is not in the repository; this
follows the wire shape of §6 of the design). -/
inductive ConfigValue where
  | str (s : String)
  | int (n : Int)
  | bool (b : Bool)
  deriving DecidableEq, Repr

/-- Modelled from the spec: primitive field types of a schema descriptor. -/
inductive FieldType where
  | string
  | integer
  | boolean
  deriving DecidableEq, Repr

/-- Modelled from the spec: one declared field of a schema descriptor,
with its name, type, required flag and the schema-level secret marking
(§4.1, §9 "declarative mark field as secret"). -/
structure FieldSpec where
  name : String
  ty : FieldType
  required : Bool
  secret : Bool
  deriving DecidableEq, Repr

/-- Modelled from the spec: a Schema Descriptor is the list of its
declared fields (§4.1). -/
structure Schema where
  fields : List FieldSpec
  deriving DecidableEq, Repr

/-- Modelled from the spec: the error taxonomy of §7. -/
inductive LoadError where
  | malformedInput
  | missingProvider
  | unknownProvider (provider : String)
  | schemaError (path : String)
  | versionMismatch (declared current : Nat)
  | constructionError
  | duplicateProvider (provider : String)
  | capabilityMismatch (capability : String)
  deriving DecidableEq, Repr

/-- Does a concrete value fit a declared field type? -/
def ConfigValue.hasType : ConfigValue → FieldType → Bool
  | .str _, .string => true
  | .int _, .integer => true
  | .bool _, .boolean => true
  | _, _ => false

/-- An untyped structured mapping (the raw config payload). -/
abbrev RawConfig := List (String × ConfigValue)

/-- First value bound to key `k` in a raw payload, if any. -/
def lookupField (raw : RawConfig) (k : String) : Option ConfigValue :=
  (raw.find? (fun kv => kv.1 == k)).map (fun kv => kv.2)

/-- Modelled from the spec: the configuration flag of §4.1 deciding how
unknown fields are treated by validation. -/
inductive UnknownFieldPolicy where
  | ignore
  | reject
  deriving DecidableEq, Repr

/-- Modelled from the spec: the default of the unknown-field flag is to
ignore unknown fields, for forward compatibility (§4.1). -/
def defaultUnknownFieldPolicy : UnknownFieldPolicy := .ignore

/-- Modelled from the spec: walk the declared fields; a missing required
field or a type mismatch fails with a `SchemaError` naming the offending
field path; the result is the typed, validated value (§4.1). -/
def validateFields : List FieldSpec → RawConfig → Except LoadError RawConfig
  | [], _ => .ok []
  | f :: fs, raw =>
    match lookupField raw f.name with
    | none =>
      if f.required then .error (.schemaError f.name)
      else validateFields fs raw
    | some v =>
      if v.hasType f.ty then
        match validateFields fs raw with
        | .ok rest => .ok ((f.name, v) :: rest)
        | .error e => .error e
      else .error (.schemaError f.name)

/-- Modelled from the spec: under the `reject` policy a field of the raw
payload not declared in the schema fails validation; under `ignore` it is
ignored (§4.1). -/
def checkUnknownFields (policy : UnknownFieldPolicy) (s : Schema) (raw : RawConfig) :
    Except LoadError Unit :=
  match policy with
  | .ignore => .ok ()
  | .reject =>
    match raw.find? (fun kv => !(s.fields.any (fun f => f.name == kv.1))) with
    | some kv => .error (.schemaError kv.1)
    | none => .ok ()

/-- Modelled from the spec: `validate(raw) -> ValidatedValue | SchemaError`
(§4.1), parametrised by the unknown-field policy. -/
def Schema.validate (policy : UnknownFieldPolicy) (s : Schema) (raw : RawConfig) :
    Except LoadError RawConfig :=
  match checkUnknownFields policy s raw with
  | .ok _ => validateFields s.fields raw
  | .error e => .error e

/-- Modelled from the spec: a Registry Entry carries the schema
descriptor, the component type label, the current version and the
capability interfaces instances of the provider implement (§3, §4.3);
construction from a validated config is the generic `construct` below. -/
structure Entry where
  schema : Schema
  componentType : String
  version : Nat
  capabilities : List String
  deriving DecidableEq, Repr

/-- Modelled from the spec: the Registry is a mapping from provider
identifier to entry (§4.3). -/
abbrev Registry := List (String × Entry)

/-- The entry bound to provider `p`, if any. -/
def findEntry (reg : Registry) (p : String) : Option Entry :=
  (reg.find? (fun kv => kv.1 == p)).map (fun kv => kv.2)

/-- Modelled from the spec: `resolve(provider_id)` fails with
`UnknownProviderError` when the provider is not registered (§4.3). -/
def resolve (reg : Registry) (p : String) : Except LoadError Entry :=
  match findEntry reg p with
  | some e => .ok e
  | none => .error (.unknownProvider p)

/-- Modelled from the spec: `register(provider_id, entry)` fails with
`DuplicateProviderError` when the id is already bound to a different
entry; re-registering the identical entry is a no-op (§4.3). -/
def register (reg : Registry) (p : String) (e : Entry) : Except LoadError Registry :=
  match findEntry reg p with
  | some e' => if e' = e then .ok reg else .error (.duplicateProvider p)
  | none => .ok ((p, e) :: reg)

/-- Modelled from the spec: a component instance, owned by its caller;
it knows its provider id, type label, version, schema and the validated
config value `to_config` returns, plus the capability interfaces it
implements (§3 Instance, §4.2). -/
structure Instance where
  providerId : String
  componentType : String
  version : Nat
  schema : Schema
  config : RawConfig
  capabilities : List String
  deriving DecidableEq, Repr

/-- Modelled from the spec: the serializable Config Envelope
`{provider, component_type, version, config}` (§3, §6); `component_type`
and `version` are optional on the wire. -/
structure Envelope where
  provider : String
  componentType : Option String
  version : Option Nat
  config : RawConfig
  deriving DecidableEq, Repr

/-- Modelled from the spec: `to_config(self)`, the decomposition function
producing the config representation of the instance (§4.2). -/
def Instance.toConfig (i : Instance) : RawConfig := i.config

/-- Is `k` the name of a schema field marked secret? -/
def Schema.isSecretField (s : Schema) (k : String) : Bool :=
  s.fields.any (fun f => f.name == k && f.secret)

/-- Modelled from the spec: the Dumper strips every field marked secret
at the schema level from the payload (§4.4 step 3). -/
def stripSecrets (s : Schema) (raw : RawConfig) : RawConfig :=
  raw.filter (fun kv => !(s.isSecretField kv.1))

/-- Modelled from the spec: `dump(instance) -> Envelope` wraps the
secret-stripped config with the instance's intrinsic provider id, type
label and version (§4.4). -/
def dump (i : Instance) : Envelope :=
  { provider := i.providerId
    componentType := some i.componentType
    version := some i.version
    config := stripSecrets i.schema i.toConfig }

/-- Modelled from the spec: the construction function invoked by the
Loader — builds a fresh instance of the resolved provider from the
validated config (§4.2 `from_config`, §4.5 step 5); it is total on
validated configs, as §4.2 requires. -/
def construct (provider : String) (e : Entry) (validated : RawConfig) : Instance :=
  { providerId := provider
    componentType := e.componentType
    version := e.version
    schema := e.schema
    config := validated
    capabilities := e.capabilities }

/-- Does the instance implement the named capability interface? -/
def satisfiesCapability (i : Instance) (c : String) : Bool :=
  i.capabilities.contains c

/-- Modelled from the spec: `load(envelope, expected_capability?)` —
resolve the provider, check the declared version against the entry's
current version, validate the payload under the default unknown-field
policy, construct the instance, and check the expected capability when
one was supplied (§4.5). -/
def load (reg : Registry) (env : Envelope) (expectedCapability : Option String) :
    Except LoadError Instance :=
  match resolve reg env.provider with
  | .error err => .error err
  | .ok e =>
    let declared := env.version.getD e.version
    if declared = e.version then
      match e.schema.validate defaultUnknownFieldPolicy env.config with
      | .error err => .error err
      | .ok validated =>
        let i := construct env.provider e validated
        match expectedCapability with
        | none => .ok i
        | some c =>
          if satisfiesCapability i c then .ok i
          else .error (.capabilityMismatch c)
    else .error (.versionMismatch declared e.version)

/-! Concrete fixtures used by the testable properties. -/

/-- The `{model: string}` schema of the `"openai_model_client"` scenario. -/
def modelField : FieldSpec :=
  { name := "model", ty := .string, required := true, secret := false }

/-- Schema of the scenario provider. -/
def openaiSchema : Schema := { fields := [modelField] }

/-- Registry entry of the scenario provider, at version 1. -/
def openaiEntry : Entry :=
  { schema := openaiSchema
    componentType := "model_client"
    version := 1
    capabilities := ["chat_completion_client"] }

/-- A registry holding only the scenario provider. -/
def demoRegistry : Registry := [("openai_model_client", openaiEntry)]

/-- The `endpoint: str` field of `ClientConfig`. -/
def endpointField : FieldSpec :=
  { name := "endpoint", ty := .string, required := true, secret := false }

/-- The `api_key: SecretStr` field of `ClientConfig`: a required field
marked secret at the schema level. -/
def apiKeyField : FieldSpec :=
  { name := "api_key", ty := .string, required := true, secret := true }

/-- The `ClientConfig` schema of the documentation's secrets example. -/
def clientSchema : Schema := { fields := [endpointField, apiKeyField] }

/-- Registry entry for a client component using `ClientConfig`. -/
def clientEntry : Entry :=
  { schema := clientSchema
    componentType := "model_client"
    version := 1
    capabilities := ["chat_completion_client"] }

/-- A registry holding only the client component. -/
def clientRegistry : Registry := [("client", clientEntry)]

/-- A client instance whose secret `api_key` holds a runtime value. -/
def clientInstance : Instance :=
  { providerId := "client"
    componentType := "model_client"
    version := 1
    schema := clientSchema
    config := [("endpoint", .str "https://api"), ("api_key", .str "sk-123")]
    capabilities := ["chat_completion_client"] }

/-- An instance of the scenario provider configured with model gpt-4o. -/
def openaiInstance : Instance :=
  { providerId := "openai_model_client"
    componentType := "model_client"
    version := 1
    schema := openaiSchema
    config := [("model", .str "gpt-4o")]
    capabilities := ["chat_completion_client"] }

/-! Properties of validation used by the round-trip theorems. -/

/-- An instance holds a validated config value: validating its own config
against its own schema succeeds and returns it unchanged (§4.2:
`to_config` returns a `ValidatedValue`). -/
def WellFormed (i : Instance) : Prop :=
  validateFields i.schema.fields i.config = .ok i.config

/-- The schema declares no two fields of the same name. -/
def NamesNodup (s : Schema) : Prop :=
  (s.fields.map FieldSpec.name).Nodup

/-- No field of the schema is both required and marked secret. -/
def NoRequiredSecret (s : Schema) : Prop :=
  ∀ f ∈ s.fields, f.required = true → f.secret = false

/-- A field is offending for a payload: required but absent, or present
with a value of the wrong type. -/
def offending (f : FieldSpec) (raw : RawConfig) : Bool :=
  match lookupField raw f.name with
  | none => f.required
  | some v => !(v.hasType f.ty)

theorem lookupField_cons_ne (k : String) (val : ConfigValue) (raw : RawConfig)
    (n : String) (h : n ≠ k) :
    lookupField ((k, val) :: raw) n = lookupField raw n := by
  simp [lookupField, List.find?]
  have : (k == n) = false := by
    simp [beq_iff_eq]
    exact fun hk => h hk.symm
  simp [this]

theorem lookupField_filter_eq_none (raw : RawConfig) (q : String × ConfigValue → Bool)
    (n : String) (h : lookupField raw n = none) :
    lookupField (raw.filter q) n = none := by
  simp only [lookupField, Option.map_eq_none', List.find?_eq_none] at *
  intro kv hkv
  exact h kv (List.mem_of_mem_filter hkv)

/-- Every key of a validated value is a declared field name. -/
theorem validateFields_keys_sub (fs : List FieldSpec) (raw v : RawConfig)
    (h : validateFields fs raw = .ok v) :
    ∀ kv ∈ v, kv.1 ∈ fs.map FieldSpec.name := by
  induction fs generalizing raw v with
  | nil =>
    simp [validateFields] at h
    subst h
    simp
  | cons f fs ih =>
    intro kv hkv
    simp only [validateFields] at h
    cases hl : lookupField raw f.name with
    | none =>
      rw [hl] at h
      by_cases hr : f.required = true
      · simp [hr] at h
      · simp [hr] at h
        exact List.mem_cons_of_mem _ (ih raw v h kv hkv)
    | some val =>
      rw [hl] at h
      by_cases ht : val.hasType f.ty = true
      · simp [ht] at h
        cases hrec : validateFields fs raw with
        | ok rest =>
          rw [hrec] at h
          simp at h
          rw [← h] at hkv
          rcases List.mem_cons.mp hkv with heq | hm
          · rw [heq]
            simp
          · exact List.mem_cons_of_mem _ (ih raw rest hrec kv hm)
        | error e =>
          rw [hrec] at h
          simp at h
      · simp [ht] at h

/-- A payload entry whose key is not a declared field name does not
affect validation. -/
theorem validateFields_cons_irrelevant (fs : List FieldSpec) (k : String)
    (val : ConfigValue) (raw : RawConfig) (hk : k ∉ fs.map FieldSpec.name) :
    validateFields fs ((k, val) :: raw) = validateFields fs raw := by
  induction fs with
  | nil => rfl
  | cons f fs ih =>
    have hne : f.name ≠ k := by
      intro he
      exact hk (by simp [← he])
    have hk2 : k ∉ fs.map FieldSpec.name := fun hm => hk (List.mem_cons_of_mem _ hm)
    simp only [validateFields, lookupField_cons_ne k val raw f.name hne, ih hk2]

theorem lookupField_cons_self (k : String) (val : ConfigValue) (raw : RawConfig) :
    lookupField ((k, val) :: raw) k = some val := by
  simp [lookupField, List.find?]

theorem lookupField_eq_none_iff (raw : RawConfig) (n : String) :
    lookupField raw n = none ↔ ∀ kv ∈ raw, kv.1 ≠ n := by
  simp [lookupField, Option.map_eq_none', List.find?_eq_none]

/-- Validation is idempotent: a validated value validates to itself. -/
theorem validateFields_idem (fs : List FieldSpec) (hnd : (fs.map FieldSpec.name).Nodup)
    (raw v : RawConfig) (h : validateFields fs raw = .ok v) :
    validateFields fs v = .ok v := by
  induction fs generalizing raw v with
  | nil =>
    simp [validateFields] at h
    subst h
    rfl
  | cons f fs ih =>
    have hnd1 : (f.name :: fs.map FieldSpec.name).Nodup := by
      rw [List.map_cons] at hnd
      exact hnd
    have hnd2 : (fs.map FieldSpec.name).Nodup := (List.nodup_cons.mp hnd1).2
    have hfn : f.name ∉ fs.map FieldSpec.name := (List.nodup_cons.mp hnd1).1
    simp only [validateFields] at h
    cases hl : lookupField raw f.name with
    | none =>
      rw [hl] at h
      by_cases hr : f.required = true
      · simp [hr] at h
      · simp [hr] at h
        have hrec := ih hnd2 raw v h
        have hkeys := validateFields_keys_sub fs raw v h
        have hlv : lookupField v f.name = none := by
          rw [lookupField_eq_none_iff]
          intro kv hkv he
          exact hfn (he ▸ hkeys kv hkv)
        simp only [validateFields, hlv, hr, if_false]
        exact hrec
    | some val =>
      rw [hl] at h
      by_cases ht : val.hasType f.ty = true
      · simp [ht] at h
        cases hrec : validateFields fs raw with
        | ok rest =>
          rw [hrec] at h
          simp at h
          subst h
          have hrest := ih hnd2 raw rest hrec
          simp only [validateFields, lookupField_cons_self, ht, if_true,
            validateFields_cons_irrelevant fs f.name val rest hfn, hrest]
        | error e =>
          rw [hrec] at h
          simp at h
      · simp [ht] at h

/-- Removing only non-required fields from a validated value leaves a
value that still validates, to itself. -/
theorem validateFields_filter (fs : List FieldSpec) (hnd : (fs.map FieldSpec.name).Nodup)
    (p : String → Bool) (hp : ∀ f ∈ fs, f.required = true → p f.name = true)
    (v : RawConfig) (hv : validateFields fs v = .ok v) :
    validateFields fs (v.filter (fun kv => p kv.1)) = .ok (v.filter (fun kv => p kv.1)) := by
  induction fs generalizing v with
  | nil =>
    simp [validateFields] at hv
    subst hv
    rfl
  | cons f fs ih =>
    have hnd1 : (f.name :: fs.map FieldSpec.name).Nodup := by
      rw [List.map_cons] at hnd
      exact hnd
    have hnd2 : (fs.map FieldSpec.name).Nodup := (List.nodup_cons.mp hnd1).2
    have hfn : f.name ∉ fs.map FieldSpec.name := (List.nodup_cons.mp hnd1).1
    have hp2 : ∀ g ∈ fs, g.required = true → p g.name = true :=
      fun g hg => hp g (List.mem_cons_of_mem _ hg)
    simp only [validateFields] at hv
    cases hl : lookupField v f.name with
    | none =>
      rw [hl] at hv
      by_cases hr : f.required = true
      · simp [hr] at hv
      · simp [hr] at hv
        have hlf : lookupField (v.filter (fun kv => p kv.1)) f.name = none :=
          lookupField_filter_eq_none v _ f.name hl
        simp only [validateFields, hlf, hr, if_false]
        exact ih hnd2 hp2 v hv
    | some val =>
      rw [hl] at hv
      by_cases ht : val.hasType f.ty = true
      · simp [ht] at hv
        cases hrec : validateFields fs v with
        | ok rest =>
          rw [hrec] at hv
          simp at hv
          have hveq : v = (f.name, val) :: rest := hv.symm
          have hrest : validateFields fs rest = .ok rest := by
            have := hrec
            rw [hveq] at this
            rw [validateFields_cons_irrelevant fs f.name val rest hfn] at this
            exact this
          have hkeys := validateFields_keys_sub fs rest rest hrest
          by_cases hpf : p f.name = true
          · have hfil : v.filter (fun kv => p kv.1) =
                (f.name, val) :: rest.filter (fun kv => p kv.1) := by
              rw [hveq]
              simp [List.filter, hpf]
            rw [hfil]
            simp only [validateFields, lookupField_cons_self, ht, if_true,
              validateFields_cons_irrelevant fs f.name val _ hfn,
              ih hnd2 hp2 rest hrest]
          · have hr : f.required = false := by
              by_cases h0 : f.required = true
              · exact absurd (hp f (List.mem_cons_self f fs) h0) (by simp [hpf])
              · simpa using h0
            have hfil : v.filter (fun kv => p kv.1) = rest.filter (fun kv => p kv.1) := by
              rw [hveq]
              simp [List.filter, hpf]
            rw [hfil]
            have hlrest : lookupField rest f.name = none := by
              rw [lookupField_eq_none_iff]
              intro kv hkv he
              exact hfn (he ▸ hkeys kv hkv)
            have hlf : lookupField (rest.filter (fun kv => p kv.1)) f.name = none :=
              lookupField_filter_eq_none rest _ f.name hlrest
            simp only [validateFields, hlf, hr, if_false]
            exact ih hnd2 hp2 rest hrest
        | error e =>
          rw [hrec] at hv
          simp at hv
      · simp [ht] at hv

/-- Validation fails with a schema error naming an offending field
whenever some declared field is offending for the payload. -/
theorem validateFields_error_of_offending (fs : List FieldSpec) (raw : RawConfig)
    (h : ∃ f ∈ fs, offending f raw = true) :
    ∃ f ∈ fs, validateFields fs raw = .error (.schemaError f.name) ∧ offending f raw = true := by
  induction fs with
  | nil => simp at h
  | cons f fs ih =>
    cases hl : lookupField raw f.name with
    | none =>
      by_cases hr : f.required = true
      · refine ⟨f, List.mem_cons_self f fs, ?_, ?_⟩
        · simp [validateFields, hl, hr]
        · simp [offending, hl, hr]
      · have hofff : offending f raw = false := by
          simp [offending, hl]
          simpa using hr
        have htail : ∃ g ∈ fs, offending g raw = true := by
          rcases h with ⟨g, hg, hoff⟩
          rcases List.mem_cons.mp hg with heq | hm
          · rw [heq] at hoff
            rw [hofff] at hoff
            simp at hoff
          · exact ⟨g, hm, hoff⟩
        rcases ih htail with ⟨g, hg, herr, hoff⟩
        refine ⟨g, List.mem_cons_of_mem _ hg, ?_, hoff⟩
        simp [validateFields, hl, hr, herr]
    | some val =>
      by_cases ht : val.hasType f.ty = true
      · have hofff : offending f raw = false := by
          simp [offending, hl, ht]
        have htail : ∃ g ∈ fs, offending g raw = true := by
          rcases h with ⟨g, hg, hoff⟩
          rcases List.mem_cons.mp hg with heq | hm
          · rw [heq] at hoff
            rw [hofff] at hoff
            simp at hoff
          · exact ⟨g, hm, hoff⟩
        rcases ih htail with ⟨g, hg, herr, hoff⟩
        refine ⟨g, List.mem_cons_of_mem _ hg, ?_, hoff⟩
        simp [validateFields, hl, ht, herr]
      · refine ⟨f, List.mem_cons_self f fs, ?_, ?_⟩
        · simp [validateFields, hl, ht]
        · simp [offending, hl, ht]

/-- Under the default policy, validation is exactly the field walk. -/
theorem validate_default_eq (s : Schema) (raw : RawConfig) :
    Schema.validate defaultUnknownFieldPolicy s raw = validateFields s.fields raw := rfl

/-- Stripping secrets twice is the same as stripping them once. -/
theorem stripSecrets_idem (s : Schema) (raw : RawConfig) :
    stripSecrets s (stripSecrets s raw) = stripSecrets s raw := by
  simp [stripSecrets, List.filter_filter]

/-- In a schema with pairwise distinct field names, a field is determined
by its name. -/
theorem name_inj (l : List FieldSpec) (h : (l.map FieldSpec.name).Nodup) :
    ∀ f ∈ l, ∀ g ∈ l, f.name = g.name → f = g := by
  induction l with
  | nil => simp
  | cons a l ih =>
    have h1 : (a.name :: l.map FieldSpec.name).Nodup := by
      rw [List.map_cons] at h
      exact h
    have ha : a.name ∉ l.map FieldSpec.name := (List.nodup_cons.mp h1).1
    have h2 : (l.map FieldSpec.name).Nodup := (List.nodup_cons.mp h1).2
    intro f hf g hg he
    rcases List.mem_cons.mp hf with hfa | hfl
    · rcases List.mem_cons.mp hg with hga | hgl
      · rw [hfa, hga]
      · exfalso
        apply ha
        rw [← hfa, he]
        exact List.mem_map.mpr ⟨g, hgl, rfl⟩
    · rcases List.mem_cons.mp hg with hga | hgl
      · exfalso
        apply ha
        rw [← hga, ← he]
        exact List.mem_map.mpr ⟨f, hfl, rfl⟩
      · exact ih h2 f hfl g hgl he

/-- The key of a schema field marked secret never survives
`stripSecrets`. -/
theorem lookupField_stripSecrets_eq_none (s : Schema) (raw : RawConfig) (f : FieldSpec)
    (hf : f ∈ s.fields) (hs : f.secret = true) :
    lookupField (stripSecrets s raw) f.name = none := by
  have hsec : s.isSecretField f.name = true := by
    simp only [Schema.isSecretField, List.any_eq_true]
    refine ⟨f, hf, ?_⟩
    simp [hs]
  rw [lookupField_eq_none_iff]
  intro kv hkv he
  have hmem : kv ∈ raw.filter (fun kv => !(s.isSecretField kv.1)) := hkv
  have hkeep := List.of_mem_filter hmem
  rw [he, hsec] at hkeep
  simp at hkeep

/-- The field walk only ever fails with a schema error. -/
theorem validateFields_error_shape (fs : List FieldSpec) (raw : RawConfig) (err : LoadError)
    (h : validateFields fs raw = .error err) : ∃ p, err = .schemaError p := by
  induction fs with
  | nil => simp [validateFields] at h
  | cons f fs ih =>
    simp only [validateFields] at h
    cases hl : lookupField raw f.name with
    | none =>
      rw [hl] at h
      by_cases hr : f.required = true
      · simp [hr] at h
        exact ⟨f.name, h.symm⟩
      · simp [hr] at h
        exact ih h
    | some val =>
      rw [hl] at h
      by_cases ht : val.hasType f.ty = true
      · simp [ht] at h
        cases hrec : validateFields fs raw with
        | ok rest => rw [hrec] at h; simp at h
        | error e2 =>
          rw [hrec] at h
          simp at h
          exact ih (h ▸ hrec)
      · simp [ht] at h
        exact ⟨f.name, h.symm⟩

/-- Stepping lemma: a fully successful pipeline without a capability
check returns the constructed instance. -/
theorem load_eq_ok (reg : Registry) (env : Envelope) (e : Entry) (v : RawConfig)
    (hres : resolve reg env.provider = .ok e)
    (hver : env.version.getD e.version = e.version)
    (hval : Schema.validate defaultUnknownFieldPolicy e.schema env.config = .ok v) :
    load reg env none = .ok (construct env.provider e v) := by
  unfold load
  rw [hres]
  simp [hver, hval]

/-- Stepping lemma: a validation failure is surfaced by `load` for any
expected capability. -/
theorem load_eq_error_of_validate_error (reg : Registry) (env : Envelope) (e : Entry)
    (cap : Option String) (err : LoadError)
    (hres : resolve reg env.provider = .ok e)
    (hver : env.version.getD e.version = e.version)
    (hval : Schema.validate defaultUnknownFieldPolicy e.schema env.config = .error err) :
    load reg env cap = .error err := by
  unfold load
  rw [hres]
  simp [hver, hval]

/-- Stepping lemma: a successful pipeline whose product lacks the
expected capability fails the capability check. -/
theorem load_some_eq_error (reg : Registry) (env : Envelope) (e : Entry) (v : RawConfig)
    (c : String)
    (hres : resolve reg env.provider = .ok e)
    (hver : env.version.getD e.version = e.version)
    (hval : Schema.validate defaultUnknownFieldPolicy e.schema env.config = .ok v)
    (hcap : satisfiesCapability (construct env.provider e v) c = false) :
    load reg env (some c) = .error (.capabilityMismatch c) := by
  unfold load
  rw [hres]
  simp [hver, hval, hcap]

end ComponentConfig

namespace MyComponentExample

/-- The `Config` model of the documentation notebook: a single `value`
field of type `str`. -/
structure Config where
  value : String
  deriving DecidableEq, Repr

/-- The `MyComponent` class of the documentation notebook: holds the
`value` it was constructed with. -/
structure MyComponent where
  value : String
  deriving DecidableEq, Repr

/-- `MyComponent._to_config` from the notebook:
`return Config(value=self.value)`. -/
def MyComponent.toConfig (c : MyComponent) : Config :=
  { value := c.value }

/-- `MyComponent._from_config` from the notebook:
`return cls(value=config.value)`. -/
def MyComponent.fromConfig (config : Config) : MyComponent :=
  { value := config.value }

end MyComponentExample

namespace ComponentConfig

/-- C1 (amended): for every component instance whose provider resolves in
the registry to an entry matching the instance's intrinsic schema, version
and type label, whose config is validated and whose schema has distinct
field names and no field that is both required and secret,
`load(dump(i))` succeeds and produces an instance whose own `dump()`
output is structurally equal to `dump(i)`. -/
theorem dump_load_dump_roundtrip (reg : Registry) (i : Instance) (e : Entry)
    (hres : resolve reg i.providerId = .ok e)
    (hschema : e.schema = i.schema)
    (hver : e.version = i.version)
    (hct : e.componentType = i.componentType)
    (hwf : WellFormed i)
    (hnd : NamesNodup i.schema)
    (hnrs : NoRequiredSecret i.schema) :
    ∃ j, load reg (dump i) none = .ok j ∧ dump j = dump i := by
  have hp : ∀ f ∈ i.schema.fields, f.required = true →
      (!(i.schema.isSecretField f.name)) = true := by
    intro f hf hr
    simp only [Bool.not_eq_true']
    by_contra hne
    have hsec : i.schema.isSecretField f.name = true := by
      simpa using hne
    simp only [Schema.isSecretField, List.any_eq_true] at hsec
    rcases hsec with ⟨g, hg, hgn⟩
    simp only [Bool.and_eq_true, beq_iff_eq] at hgn
    have hge : g = f := name_inj i.schema.fields hnd g hg f hf hgn.1
    rw [hge] at hgn
    rw [hnrs f hf hr] at hgn
    exact Bool.noConfusion hgn.2
  have hstr : validateFields i.schema.fields (stripSecrets i.schema i.config) =
      .ok (stripSecrets i.schema i.config) :=
    validateFields_filter i.schema.fields hnd
      (fun k => !(i.schema.isSecretField k)) hp i.config hwf
  have hval : Schema.validate defaultUnknownFieldPolicy e.schema (dump i).config =
      .ok (stripSecrets i.schema i.config) := by
    rw [validate_default_eq, hschema]
    exact hstr
  have hverenv : (dump i).version.getD e.version = e.version := by
    simp [dump, hver]
  refine ⟨construct (dump i).provider e (stripSecrets i.schema i.config),
    load_eq_ok reg (dump i) e (stripSecrets i.schema i.config) hres hverenv hval, ?_⟩
  show dump (construct i.providerId e (stripSecrets i.schema i.config)) = dump i
  simp only [dump, construct, Instance.toConfig]
  rw [hschema, hct, hver, stripSecrets_idem]

/-- C1 counterexample: the documented `ClientConfig` component has a
required field marked secret (`api_key`); for an instance of it,
`load(dump(i))` does not succeed, so the round-trip claim fails as stated
for this instance. -/
theorem dump_load_dump_roundtrip_cex :
    ¬ ∃ j, load clientRegistry (dump clientInstance) none = .ok j ∧
      dump j = dump clientInstance := by
  rintro ⟨j, hj, -⟩
  have h : load clientRegistry (dump clientInstance) none =
      .error (.schemaError "api_key") := rfl
  rw [h] at hj
  exact Except.noConfusion hj

/-- C1 witness: the round-trip holds for the concrete
`openai_model_client` instance. -/
theorem dump_load_dump_roundtrip_witness :
    ∃ j, load demoRegistry (dump openaiInstance) none = .ok j ∧
      dump j = dump openaiInstance :=
  dump_load_dump_roundtrip demoRegistry openaiInstance openaiEntry rfl rfl rfl rfl rfl
    (by unfold NamesNodup; decide) (by unfold NoRequiredSecret; decide)

/-- C2: for every field of an instance's schema marked secret, the config
payload of `dump(i)` does not contain that field's key, whatever the
field's runtime value. -/
theorem secret_fields_omitted (i : Instance) (f : FieldSpec)
    (hf : f ∈ i.schema.fields) (hs : f.secret = true) :
    lookupField (dump i).config f.name = none :=
  lookupField_stripSecrets_eq_none i.schema i.toConfig f hf hs

/-- C2 witness: the dumped client instance's payload lacks `api_key`. -/
theorem secret_fields_omitted_witness :
    lookupField (dump clientInstance).config "api_key" = none :=
  secret_fields_omitted clientInstance apiKeyField (by decide) rfl

/-- C3: loading the scenario envelope (provider `openai_model_client`,
config `{model: gpt-4o}`, version omitted) succeeds, and dumping the
result yields the provider, the same config and version 1 (the omitted
version defaulted to the component's current version); the envelope also
records the component's informational type label. -/
theorem openai_scenario_roundtrip :
    (load demoRegistry
      { provider := "openai_model_client", componentType := none, version := none,
        config := [("model", .str "gpt-4o")] } none).map dump =
    .ok { provider := "openai_model_client", componentType := some "model_client",
          version := some 1, config := [("model", .str "gpt-4o")] } := rfl

/-- C4: an envelope whose provider is bound by no registry entry fails to
load with `UnknownProviderError`, for any expected capability. -/
theorem unknown_provider_load_fails (reg : Registry) (env : Envelope) (cap : Option String)
    (h : ∀ kv ∈ reg, kv.1 ≠ env.provider) :
    load reg env cap = .error (.unknownProvider env.provider) := by
  have hfind : findEntry reg env.provider = none := by
    simp only [findEntry, Option.map_eq_none', List.find?_eq_none]
    intro kv hkv
    simpa using h kv hkv
  have hres : resolve reg env.provider = .error (.unknownProvider env.provider) := by
    unfold resolve
    rw [hfind]
  unfold load
  rw [hres]

/-- C4 witness: loading `{provider: does-not-exist, config: {}}` against
the demo registry fails with `UnknownProviderError`. -/
theorem unknown_provider_witness :
    load demoRegistry
      { provider := "does-not-exist", componentType := none, version := none,
        config := [] } none = .error (.unknownProvider "does-not-exist") :=
  unknown_provider_load_fails demoRegistry
    { provider := "does-not-exist", componentType := none, version := none, config := [] }
    none (by decide)

/-- C9: when an instance's schema declares a field that is both required
and secret, and its provider resolves to a matching entry, the dumped
envelope omits that field and therefore `load(dump(i))` fails with a
`SchemaError` — the round-trip does not hold for such schemas. -/
theorem required_secret_breaks_roundtrip (reg : Registry) (i : Instance) (e : Entry)
    (hres : resolve reg i.providerId = .ok e)
    (hschema : e.schema = i.schema)
    (hver : e.version = i.version)
    (hsec : ∃ f ∈ i.schema.fields, f.required = true ∧ f.secret = true) :
    ∃ path, load reg (dump i) none = .error (.schemaError path) := by
  rcases hsec with ⟨f, hf, hreq, hs⟩
  have hstrip : lookupField (stripSecrets i.schema i.config) f.name = none :=
    lookupField_stripSecrets_eq_none i.schema i.config f hf hs
  have hoff : offending f (stripSecrets i.schema i.config) = true := by
    simp [offending, hstrip, hreq]
  have hbad : ∃ g ∈ e.schema.fields, offending g (dump i).config = true := by
    rw [hschema]
    exact ⟨f, hf, hoff⟩
  rcases validateFields_error_of_offending e.schema.fields (dump i).config hbad
    with ⟨g, hg, herr, -⟩
  have hverenv : (dump i).version.getD e.version = e.version := by
    simp [dump, hver]
  exact ⟨g.name, load_eq_error_of_validate_error reg (dump i) e none _ hres hverenv
    (by rw [validate_default_eq]; exact herr)⟩

/-- C9 witness: the client instance with its required secret `api_key`
fails to round-trip with a `SchemaError`. -/
theorem required_secret_witness :
    ∃ path, load clientRegistry (dump clientInstance) none = .error (.schemaError path) :=
  required_secret_breaks_roundtrip clientRegistry clientInstance clientEntry rfl rfl rfl
    (by decide)

end ComponentConfig

namespace MyComponentExample

/-- C10: `_to_config` of `MyComponent(v)` is `Config(value=v)`,
`_from_config(Config(value=v))` yields an instance whose `value` is `v`,
and hence `_from_config(_to_config(i))` preserves `value` for every
instance `i`. -/
theorem my_component_field_roundtrip :
    ∀ v : String,
      (MyComponent.mk v).toConfig = Config.mk v ∧
      (MyComponent.fromConfig (Config.mk v)).value = v ∧
      ∀ i : MyComponent, (MyComponent.fromConfig i.toConfig).value = i.value :=
  fun _ => ⟨rfl, rfl, fun _ => rfl⟩

end MyComponentExample

namespace ComponentConfig

/-- A registry binding the provider id `"custom"`. -/
def customRegistry : Registry := [("custom", openaiEntry)]

/-- A registry binding the provider id `"valid-provider"` to the
`{model: string}` schema. -/
def validProviderRegistry : Registry := [("valid-provider", openaiEntry)]

/-- C5: `register` fails with `DuplicateProviderError` exactly when the
provider id is already bound to a different entry, and re-registering the
identical entry under an already-bound id succeeds and leaves the
registry unchanged. -/
theorem duplicate_registration_iff (reg : Registry) (p : String) (e : Entry) :
    (register reg p e = .error (.duplicateProvider p) ↔
      ∃ e' : Entry, findEntry reg p = some e' ∧ e' ≠ e) ∧
    (findEntry reg p = some e → register reg p e = .ok reg) := by
  constructor
  · constructor
    · intro h
      unfold register at h
      cases hf : findEntry reg p with
      | none =>
        rw [hf] at h
        exact Except.noConfusion h
      | some e' =>
        rw [hf] at h
        by_cases he : e' = e
        · rw [he] at h
          simp at h
        · exact ⟨e', rfl, he⟩
    · rintro ⟨e', hf, hne⟩
      unfold register
      rw [hf]
      simp [hne]
  · intro hf
    unfold register
    rw [hf]
    simp

/-- C5 witness: binding `"custom"` to a second, different entry fails
with `DuplicateProviderError`, while re-registering the identical entry
returns the registry unchanged. -/
theorem duplicate_registration_witness :
    register customRegistry "custom" clientEntry = .error (.duplicateProvider "custom") ∧
    register customRegistry "custom" openaiEntry = .ok customRegistry :=
  ⟨(duplicate_registration_iff customRegistry "custom" clientEntry).1.mpr
      ⟨openaiEntry, rfl, by decide⟩,
    (duplicate_registration_iff customRegistry "custom" openaiEntry).2 rfl⟩

/-- C6: when the provider resolves and the declared version matches, but
some declared field is offending for the payload (required but absent, or
present with the wrong type), `load` fails with a `SchemaError` naming an
offending field's path. -/
theorem schema_error_on_invalid_payload (reg : Registry) (env : Envelope) (e : Entry)
    (cap : Option String)
    (hres : resolve reg env.provider = .ok e)
    (hver : env.version.getD e.version = e.version)
    (hbad : ∃ f ∈ e.schema.fields, offending f env.config = true) :
    ∃ f ∈ e.schema.fields, load reg env cap = .error (.schemaError f.name) ∧
      offending f env.config = true := by
  rcases validateFields_error_of_offending e.schema.fields env.config hbad
    with ⟨f, hf, herr, hoff⟩
  refine ⟨f, hf, ?_, hoff⟩
  exact load_eq_error_of_validate_error reg env e cap _ hres hver
    (by rw [validate_default_eq]; exact herr)

/-- C6 witness: `{provider: valid-provider, config: {wrong_field: 1}}`
fails to load with a `SchemaError` naming an offending field (the missing
required `model`). -/
theorem schema_error_witness :
    ∃ f ∈ openaiEntry.schema.fields,
      load validProviderRegistry
        { provider := "valid-provider", componentType := none, version := none,
          config := [("wrong_field", .int 1)] } none =
        .error (.schemaError f.name) ∧
      offending f [("wrong_field", ConfigValue.int 1)] = true :=
  schema_error_on_invalid_payload validProviderRegistry
    { provider := "valid-provider", componentType := none, version := none,
      config := [("wrong_field", .int 1)] }
    openaiEntry none rfl rfl (by decide)

/-- C7: when the pipeline up to construction succeeds, supplying an
expected capability the constructed instance does not implement makes
`load` fail with `CapabilityMismatchError`; and when no expected
capability is supplied, `load` never fails with
`CapabilityMismatchError`. -/
theorem capability_check (reg : Registry) (env : Envelope) (c : String) :
    (∀ i : Instance, load reg env none = .ok i → satisfiesCapability i c = false →
      load reg env (some c) = .error (.capabilityMismatch c)) ∧
    (∀ c2 : String, load reg env none ≠ .error (.capabilityMismatch c2)) := by
  cases hfind : findEntry reg env.provider with
  | none =>
    have hres : resolve reg env.provider = .error (.unknownProvider env.provider) := by
      unfold resolve
      rw [hfind]
    have hl : load reg env none = .error (.unknownProvider env.provider) := by
      unfold load
      rw [hres]
    constructor
    · intro i hi
      rw [hl] at hi
      exact Except.noConfusion hi
    · intro c2 h
      rw [hl] at h
      exact LoadError.noConfusion (Except.error.inj h)
  | some e =>
    have hres : resolve reg env.provider = .ok e := by
      unfold resolve
      rw [hfind]
    by_cases hv : env.version.getD e.version = e.version
    · cases hval : Schema.validate defaultUnknownFieldPolicy e.schema env.config with
      | error err =>
        have herr : ∃ p, err = .schemaError p := by
          rw [validate_default_eq] at hval
          exact validateFields_error_shape e.schema.fields env.config err hval
        have hl : load reg env none = .error err :=
          load_eq_error_of_validate_error reg env e none err hres hv hval
        constructor
        · intro i hi
          rw [hl] at hi
          exact Except.noConfusion hi
        · intro c2 h
          rw [hl] at h
          rcases herr with ⟨p, hp⟩
          rw [hp] at h
          exact LoadError.noConfusion (Except.error.inj h)
      | ok v =>
        have hl : load reg env none = .ok (construct env.provider e v) :=
          load_eq_ok reg env e v hres hv hval
        constructor
        · intro i hi hcap
          rw [hl] at hi
          have hieq : construct env.provider e v = i := Except.ok.inj hi
          exact load_some_eq_error reg env e v c hres hv hval (by rw [hieq]; exact hcap)
        · intro c2 h
          rw [hl] at h
          exact Except.noConfusion h
    · have hl : load reg env none =
          .error (.versionMismatch (env.version.getD e.version) e.version) := by
        unfold load
        rw [hres]
        simp [hv]
      constructor
      · intro i hi
        rw [hl] at hi
        exact Except.noConfusion hi
      · intro c2 h
        rw [hl] at h
        exact LoadError.noConfusion (Except.error.inj h)

/-- C7 witness: the scenario provider loads fine without an expected
capability, but requesting the unimplemented `vector_store` capability
fails with `CapabilityMismatchError`. -/
theorem capability_check_witness :
    load demoRegistry
      { provider := "openai_model_client", componentType := none, version := none,
        config := [("model", .str "gpt-4o")] } (some "vector_store") =
      .error (.capabilityMismatch "vector_store") :=
  (capability_check demoRegistry
    { provider := "openai_model_client", componentType := none, version := none,
      config := [("model", .str "gpt-4o")] } "vector_store").1
    (construct "openai_model_client" openaiEntry [("model", .str "gpt-4o")]) rfl rfl

/-- C8: under the default unknown-field policy, an unknown field added to
a payload that validates is ignored — validation still succeeds with the
same validated value. -/
theorem unknown_fields_ignored_by_default (s : Schema) (k : String) (val : ConfigValue)
    (raw v : RawConfig)
    (hk : ∀ f ∈ s.fields, f.name ≠ k)
    (hok : Schema.validate defaultUnknownFieldPolicy s raw = .ok v) :
    Schema.validate defaultUnknownFieldPolicy s ((k, val) :: raw) = .ok v := by
  rw [validate_default_eq] at hok ⊢
  rw [validateFields_cons_irrelevant s.fields k val raw ?_]
  · exact hok
  · intro hm
    rcases List.mem_map.mp hm with ⟨f, hf, he⟩
    exact hk f hf he

/-- C8 witness: adding the unknown `extra` field to a valid
`{model: gpt-4o}` payload still validates under the default policy. -/
theorem unknown_fields_ignored_witness :
    Schema.validate defaultUnknownFieldPolicy openaiSchema
      [("extra", .int 7), ("model", .str "gpt-4o")] =
      .ok [("model", ConfigValue.str "gpt-4o")] :=
  unknown_fields_ignored_by_default openaiSchema "extra" (.int 7)
    [("model", .str "gpt-4o")] [("model", .str "gpt-4o")] (by decide) rfl

end ComponentConfig
